import Mathlib

/-!
Shallow embedding of the `go-tp3` ray tracer (files `utils.go`, `main.go`
and the Phong material file) over exact rationals.  The transcendental
primitives of the Go runtime (`math.Sqrt`, `math.Pow`) are abstracted as a
record of scalar functions `FloatOps` that every operation threads through;
all structure of the algorithms (intersection, nearest-hit selection,
shading formulas, frame assembly) is translated literally from the source.
-/

namespace GoRT

/-- `Vec3f` from `utils.go`: three scalar components. -/
structure Vec3f where
  x : ℚ
  y : ℚ
  z : ℚ
deriving DecidableEq

/-- Abstract scalar primitives supplied by the Go runtime: `math.Sqrt`
(used by `norme`/`normalized` and the intersection routine) and the `Pow`
function used by the Phong material. -/
structure FloatOps where
  sqrt : ℚ → ℚ
  pow : ℚ → ℚ → ℚ

/-- `Vec3f.inverte` from `utils.go`: component-wise negation. -/
def Vec3f.inverte (v : Vec3f) : Vec3f :=
  ⟨-v.x, -v.y, -v.z⟩

/-- `Add` from `utils.go`: component-wise addition. -/
def Add (v1 v2 : Vec3f) : Vec3f :=
  ⟨v1.x + v2.x, v1.y + v2.y, v1.z + v2.z⟩

/-- `Vec3f.mul` from `utils.go`: scaling by a scalar. -/
def Vec3f.mul (v : Vec3f) (f : ℚ) : Vec3f :=
  ⟨v.x * f, v.y * f, v.z * f⟩

/-- `Mul` from `utils.go`: component-wise (Hadamard) product. -/
def Mul (v1 v2 : Vec3f) : Vec3f :=
  ⟨v1.x * v2.x, v1.y * v2.y, v1.z * v2.z⟩

/-- `Dot` from `utils.go`. -/
def Dot (v1 v2 : Vec3f) : ℚ :=
  v1.x * v2.x + v1.y * v2.y + v1.z * v2.z

/-- `cross` from `utils.go`. -/
def cross (v1 v2 : Vec3f) : Vec3f :=
  ⟨v1.y * v2.z - v2.y * v1.z, v1.z * v2.x - v2.z * v1.x, v1.x * v2.y - v2.x * v1.y⟩

/-- `Vec3f.norme` from `utils.go`: `sqrt(x*x + y*y + z*z)`. -/
def Vec3f.norme (ops : FloatOps) (v : Vec3f) : ℚ :=
  ops.sqrt (v.x * v.x + v.y * v.y + v.z * v.z)

/-- `Vec3f.normalized` from `utils.go`: each component divided by the norm. -/
def Vec3f.normalized (ops : FloatOps) (v : Vec3f) : Vec3f :=
  let norme := v.norme ops
  ⟨v.x / norme, v.y / norme, v.z / norme⟩

/-- Modelled from the spec: vector subtraction `Sub` (`lightPosition − P`
in the Phong model); the file defining `Sub` is not among the provided
sources, only its caller is. -/
def Sub (v1 v2 : Vec3f) : Vec3f :=
  ⟨v1.x - v2.x, v1.y - v2.y, v1.z - v2.z⟩

/-- `rgbRepresentation` from `utils.go`: three 8-bit channels, modelled as
naturals that are always produced reduced modulo 256. -/
structure rgbRepresentation where
  r : ℕ
  g : ℕ
  b : ℕ
deriving DecidableEq

/-- Truncation toward zero of a rational, the semantics of Go's
float-to-integer conversion. -/
def ratTrunc (x : ℚ) : ℤ :=
  if 0 ≤ x then ⌊x⌋ else ⌈x⌉

/-- Go's `uint8(x)` conversion of a float as the spec describes it:
truncate toward zero, then wrap modulo 256 (no saturation). -/
def colorByte (x : ℚ) : ℕ :=
  (ratTrunc x % 256).toNat

/-- `Light` from `main.go`. -/
structure Light where
  color : Vec3f
  position : Vec3f
deriving DecidableEq

/-- `Lambert` from `main.go`: diffuse coefficient. -/
structure Lambert where
  kd : Vec3f
deriving DecidableEq

/-- `Phong` from the Phong material file: ambient, diffuse and specular
coefficients and the shininess exponent `n`. -/
structure Phong where
  ka : Vec3f
  kd : Vec3f
  ks : Vec3f
  n : ℚ
deriving DecidableEq

/-- The `Materials` interface of `main.go`, closed over its two
implementations. -/
inductive Materials where
  | lambert : Lambert → Materials
  | phong : Phong → Materials
deriving DecidableEq

/-- `Sphere` from `main.go`: radius, centre position, owned material. -/
structure Sphere where
  radius : ℚ
  position : Vec3f
  Material : Materials
deriving DecidableEq

/-- `Scene` from `main.go`: insertion-ordered objects and lights.  The
`ambiantLight` field is modelled from the spec (the Phong material file
reads `scene.ambiantLight`, but the file declaring that field is not among
the provided sources). -/
structure Scene where
  objects : List Sphere
  lights : List Light
  ambiantLight : Vec3f
deriving DecidableEq

/-- `Lambert.render` from `main.go`: hit point `omega = rio + rdi*t`,
radiance `Li = Mul(kd, lights[0].color.mul(Dot(n, omega))).mul(1/3.14)`,
each channel truncated-and-wrapped after scaling by 255.  Indexing
`scene.lights[0]` panics on an empty light list, modelled as `none`. -/
def Lambert.render (ops : FloatOps) (l : Lambert) (rio rdi n : Vec3f) (t : ℚ)
    (scene : Scene) : Option rgbRepresentation :=
  match scene.lights with
  | [] => none
  | light :: _ =>
    let omega := Add rio (rdi.mul t)
    let Li := (Mul l.kd (light.color.mul (Dot n omega))).mul (1 / 3.14)
    some ⟨colorByte (Li.x * 255), colorByte (Li.y * 255), colorByte (Li.z * 255)⟩

/-- `Phong.render` from the Phong material file, translated literally:
ambient term from the scene's ambient light, diffuse term from the first
light, specular term reusing the normalized light vector as `R`.  `Pow` is
the abstract `ops.pow`.  Indexing `scene.lights[0]` panics on an empty
light list, modelled as `none`. -/
def Phong.render (ops : FloatOps) (l : Phong) (rio rdi n : Vec3f) (t : ℚ)
    (scene : Scene) : Option rgbRepresentation :=
  match scene.lights with
  | [] => none
  | light :: _ =>
    let Ia := Mul l.ka scene.ambiantLight
    let omega := Add rio (rdi.mul t)
    let vil := (Sub light.position omega).normalized ops
    let L := vil
    let nn := n.normalized ops
    let I := light.color
    let Id := Mul l.kd (I.mul (Dot L nn))
    let R := vil.normalized ops
    let V := (rdi.inverte).normalized ops
    let Is := (Mul l.ks I).mul (ops.pow (Dot R V) l.n)
    let res := Add (Add Ia Id) Is
    some ⟨colorByte (res.x * 255), colorByte (res.y * 255), colorByte (res.z * 255)⟩

/-- Dynamic dispatch of the `Materials` interface. -/
def Materials.render (ops : FloatOps) (m : Materials) (rio rdi n : Vec3f) (t : ℚ)
    (scene : Scene) : Option rgbRepresentation :=
  match m with
  | .lambert l => l.render ops rio rdi n t scene
  | .phong p => p.render ops rio rdi n t scene

/-- `Sphere.isIntersectedByRay` from `main.go`, literally: `L = ro - centre`
(written as an `Add` of the negated components, as in the source),
quadratic coefficients, `t0/t1` with the source's `/ 2 * a` precedence,
`t = min(t0, t1)`, hit exactly when `delta > 0`. -/
def Sphere.isIntersectedByRay (ops : FloatOps) (s : Sphere) (ro rd : Vec3f) :
    Bool × ℚ :=
  let L := Add ro ⟨-s.position.x, -s.position.y, -s.position.z⟩
  let a := Dot rd rd
  let b := 2 * Dot rd L
  let c := Dot L L - s.radius * s.radius
  let delta := b * b - 4 * a * c
  let t0 := (-b - ops.sqrt delta) / 2 * a
  let t1 := (-b + ops.sqrt delta) / 2 * a
  let t := min t0 t1
  if 0 < delta then (true, t) else (false, 0)

/-- `Sphere.render` from `main.go`: delegates to the owned material with
`n = rdi.inverte()`. -/
def Sphere.render (ops : FloatOps) (s : Sphere) (rio rdi : Vec3f) (t : ℚ)
    (scene : Scene) : Option rgbRepresentation :=
  s.Material.render ops rio rdi rdi.inverte t scene

/-- The loop body of `renderPixel` from `main.go`, as structural recursion
over the remaining objects with the `(tmin, res)` accumulator.  A panic of
`render` (empty light list) aborts the whole computation. -/
def renderLoop (ops : FloatOps) (scene : Scene) (ro rd : Vec3f) :
    List Sphere → ℚ × rgbRepresentation → Option (ℚ × rgbRepresentation)
  | [], acc => some acc
  | obj :: rest, acc =>
    let r := obj.isIntersectedByRay ops ro rd
    if r.1 = true ∧ r.2 < acc.1 then
      match obj.render ops ro rd r.2 scene with
      | none => none
      | some c => renderLoop ops scene ro rd rest (r.2, c)
    else
      renderLoop ops scene ro rd rest acc

/-- `renderPixel` from `main.go`: `tmin` starts at the `9999999999.0`
sentinel, the result starts as the zero-initialized black sample, and the
objects are scanned in insertion order. -/
def renderPixel (ops : FloatOps) (scene : Scene) (ro rd : Vec3f) :
    Option rgbRepresentation :=
  (renderLoop ops scene ro rd scene.objects (9999999999, ⟨0, 0, 0⟩)).map Prod.snd

/-- `Camera` from `main.go`. -/
structure Camera where
  position : Vec3f
  up : Vec3f
  «at» : Vec3f
deriving DecidableEq

/-- `Camera.direction` from `main.go`: `dir = at + position.inverte()`,
scaled by `1/dir.norme()`. -/
def Camera.direction (ops : FloatOps) (c : Camera) : Vec3f :=
  let dir := Add c.«at» c.position.inverte
  dir.mul (1 / dir.norme ops)

/-- `Image` from `main.go`: the frame buffer is modelled as a total map
from flat indices to the cell's computed sample (`none` marks a cell whose
shading panicked, or one never written). -/
structure Image where
  frameBuffer : ℕ → Option rgbRepresentation
  width : ℕ
  height : ℕ

/-- Point update of a frame buffer at one flat index (the slice assignment
`image.frameBuffer[idx] = ...`). -/
def writeCell (buf : ℕ → Option rgbRepresentation) (i : ℕ)
    (v : Option rgbRepresentation) : ℕ → Option rgbRepresentation :=
  fun j => if j = i then v else buf j

/-- The inner `y` loop of `renderFrame`: for a fixed column `x`, write the
pixel value `pixx y` at flat index `y*w + x` for every `y < h`. -/
def colLoop (w x : ℕ) (pixx : ℕ → Option rgbRepresentation) (h : ℕ)
    (im : Image) : Image :=
  (List.range h).foldl
    (fun b y => { b with frameBuffer := writeCell b.frameBuffer (y * w + x) (pixx y) }) im

/-- The outer `x` loop of `renderFrame` over the inner loop. -/
def frameLoop (w h : ℕ) (pix : ℕ → ℕ → Option rgbRepresentation) (im : Image) :
    Image :=
  (List.range w).foldl (fun a x => colLoop w x (pix x) h a) im

/-- `renderFrame` from `main.go`: fixed ray origin, `cosFovy = 0.66` field
of view, image-plane basis from the camera direction and up vector, and a
`renderPixel` call per pixel stored at `y*width + x`. -/
def renderFrame (ops : FloatOps) (image : Image) (camera : Camera)
    (scene : Scene) : Image :=
  let ro := camera.position
  let cosFovy : ℚ := 0.66
  let aspect : ℚ := (image.width : ℚ) / (image.height : ℚ)
  let horizontal := ((cross (camera.direction ops) camera.up).normalized ops).mul (cosFovy * aspect)
  let vertical := ((cross horizontal (camera.direction ops)).normalized ops).mul cosFovy
  frameLoop image.width image.height
    (fun x y =>
      let uvx := ((x : ℚ) + 0.5) / (image.width : ℚ)
      let uvy := ((y : ℚ) + 0.5) / (image.height : ℚ)
      let rd := (Add (Add (camera.direction ops) (horizontal.mul (uvx - 0.5)))
        (vertical.mul (uvy - 0.5))).normalized ops
      renderPixel ops scene ro rd)
    image

/-- The RGBA pixel written by `Image.save` (`image/color.RGBA`). -/
structure RGBA where
  r : ℕ
  g : ℕ
  b : ℕ
  a : ℕ
deriving DecidableEq

/-- The per-pixel body of `Image.save` from `main.go`: the cell at flat
index `y*width + x` is encoded as `RGBA{r, g, b, 255}` where the local
`r, g, b` are read as `frameBuffer[idx].r, frameBuffer[idx].b,
frameBuffer[idx].g` — i.e. with the green and blue channels swapped. -/
def Image.save (img : Image) (x y : ℕ) : Option RGBA :=
  (img.frameBuffer (y * img.width + x)).map
    (fun cell => ⟨cell.r, cell.b, cell.g, 255⟩)

/-! ## Helper lemmas -/

/-- Evaluation rule for `colorByte` on a value lying in `[z, z+1)` for a
nonnegative integer `z`. -/
theorem colorByte_eq (x : ℚ) (z : ℤ) (v : ℕ) (h1 : (z : ℚ) ≤ x) (h2 : x < z + 1)
    (h3 : 0 ≤ z) (hv : (z % 256).toNat = v) : colorByte x = v := by
  have h0 : 0 ≤ x := le_trans (by exact_mod_cast h3) h1
  have hf : ⌊x⌋ = z := Int.floor_eq_iff.mpr ⟨h1, by exact_mod_cast h2⟩
  simp [colorByte, ratTrunc, h0, hf, hv]

/-! ## Shared concrete values used by witnesses -/

/-- A concrete `FloatOps` whose transcendental functions return 0, used to
evaluate structural claims on concrete inputs. -/
def zeroOps : FloatOps := ⟨fun _ => 0, fun _ _ => 0⟩

/-- A concrete scene with no objects and one white light at `(0,10,0)`. -/
def sceneW : Scene := ⟨[], [⟨⟨1, 1, 1⟩, ⟨0, 10, 0⟩⟩], ⟨0, 0, 0⟩⟩

/-! ## Claims -/

/-- C1: `Sphere.isIntersectedByRay` computes `a = dot(rd,rd)`,
`b = 2*dot(rd, ro-centre)`, `c = dot(L,L) - radius^2`,
`delta = b^2 - 4ac`; if `delta ≤ 0` it returns `(false, 0)` (tangency
`delta = 0` is a miss), and if `delta > 0` it returns `(true, min(t0,t1))`
with `t0, t1 = (-b ∓ sqrt(delta)) / 2 * a` (division by 2, then
multiplication by `a`), with negative `t` values not filtered out. -/
theorem sphere_intersect_spec (ops : FloatOps) (s : Sphere) (ro rd : Vec3f) :
    s.isIntersectedByRay ops ro rd =
      (let a := Dot rd rd
       let b := 2 * Dot rd (Sub ro s.position)
       let c := Dot (Sub ro s.position) (Sub ro s.position) - s.radius ^ 2
       let delta := b ^ 2 - 4 * a * c
       if 0 < delta then
         (true, min ((-b - ops.sqrt delta) / 2 * a) ((-b + ops.sqrt delta) / 2 * a))
       else (false, 0)) := by
  have hL : Add ro ⟨-s.position.x, -s.position.y, -s.position.z⟩ = Sub ro s.position := by
    simp [Add, Sub, sub_eq_add_neg]
  simp only [Sphere.isIntersectedByRay, hL, pow_two]

/-- C5: `Sphere.render` delegates to the sphere's owned material, passing
the negated incoming ray direction as the surface normal argument. -/
theorem sphere_render_delegates (ops : FloatOps) (s : Sphere) (rio rdi : Vec3f)
    (t : ℚ) (scene : Scene) :
    s.render ops rio rdi t scene =
      s.Material.render ops rio rdi rdi.inverte t scene := rfl

/-- C3 (amended): with a non-empty light list, `Lambert.render` returns the
truncate-and-wrap conversion of
`Mul(kd, firstLightColor.mul(Dot(n, rio + rdi*t))).mul(1/3.14) * 255`
per channel — the constant is `1/3.14`, not `1/π` — consulting only the
scene's first light. -/
theorem lambert_render_spec (ops : FloatOps) (l : Lambert) (rio rdi n : Vec3f)
    (t : ℚ) (scene : Scene) (light : Light) (rest : List Light)
    (h : scene.lights = light :: rest) :
    Lambert.render ops l rio rdi n t scene =
      (let Li := (Mul l.kd (light.color.mul (Dot n (Add rio (rdi.mul t))))).mul (1 / 3.14)
       some ⟨colorByte (Li.x * 255), colorByte (Li.y * 255), colorByte (Li.z * 255)⟩) := by
  simp only [Lambert.render, h]

/-- Witness for C3's amended theorem at a concrete input. -/
theorem lambert_render_spec_witness :
    Lambert.render zeroOps ⟨⟨1, 1, 1⟩⟩ ⟨25, 0, 0⟩ ⟨0, 0, 0⟩ ⟨1, 0, 0⟩ 0 sceneW =
      (let Li := (Mul (Vec3f.mk 1 1 1) ((Vec3f.mk 1 1 1).mul
        (Dot ⟨1, 0, 0⟩ (Add ⟨25, 0, 0⟩ ((Vec3f.mk 0 0 0).mul 0))))).mul (1 / 3.14)
       some ⟨colorByte (Li.x * 255), colorByte (Li.y * 255), colorByte (Li.z * 255)⟩) :=
  lambert_render_spec zeroOps ⟨⟨1, 1, 1⟩⟩ ⟨25, 0, 0⟩ ⟨0, 0, 0⟩ ⟨1, 0, 0⟩ 0 sceneW
    ⟨⟨1, 1, 1⟩, ⟨0, 10, 0⟩⟩ [] rfl

/-- C3 counterexample: at this input the code returns channel value 238
(truncating `25 * (1/3.14) * 255 = 2030.25…`), while the claim's formula
with the constant `1/π` yields `⌊25 * (1/π) * 255⌋ = 2029`, i.e. channel
value `2029 % 256 = 237 ≠ 238`; so the claim's `1/π` does not match the
code's `1/3.14`. -/
theorem lambert_pi_counterexample :
    Lambert.render zeroOps ⟨⟨1, 1, 1⟩⟩ ⟨25, 0, 0⟩ ⟨0, 0, 0⟩ ⟨1, 0, 0⟩ 0 sceneW =
      some ⟨238, 238, 238⟩
    ∧ (⌊(25 * (1 / Real.pi)) * 255⌋ % 256 : ℤ) = 237
    ∧ (237 : ℤ) ≠ 238 := by
  refine ⟨?_, ?_, by decide⟩
  · simp only [Lambert.render, sceneW, Mul, Vec3f.mul, Dot, Add,
      Option.some.injEq, rgbRepresentation.mk.injEq]
    refine ⟨?_, ?_, ?_⟩ <;>
      exact colorByte_eq _ 2030 238 (by norm_num) (by norm_num) (by norm_num) (by decide)
  · have h1 := Real.pi_gt_3141592
    have h2 := Real.pi_lt_3141593
    have hpi : (0 : ℝ) < Real.pi := by linarith
    have he : (25 * (1 / Real.pi)) * 255 = 6375 / Real.pi := by ring
    rw [he]
    have hf : ⌊(6375 / Real.pi : ℝ)⌋ = 2029 := by
      refine Int.floor_eq_iff.mpr ⟨?_, ?_⟩
      · push_cast
        rw [le_div_iff hpi]
        nlinarith
      · push_cast
        rw [div_lt_iff hpi]
        nlinarith
    rw [hf]
    decide

/-- C4: with a non-empty light list, `Phong.render` returns the
truncate-and-wrap conversion of `Ia + Id + Is`, where
`Ia = Mul(ka, scene.ambiantLight)`,
`Id = Mul(kd, firstLightColor.mul(Dot(Lvec, normalizedNormal)))` with
`Lvec = normalize(lightPosition - hitPoint)`, and
`Is = Mul(ks, firstLightColor).mul(pow(Dot(R,V), shininess))` with
`R = normalize(Lvec)` (the light vector reused in place of a reflection
vector) and `V = normalize(rdi.inverte())`; only the first light is used. -/
theorem phong_render_spec (ops : FloatOps) (p : Phong) (rio rdi n : Vec3f)
    (t : ℚ) (scene : Scene) (light : Light) (rest : List Light)
    (h : scene.lights = light :: rest) :
    Phong.render ops p rio rdi n t scene =
      (let Ia := Mul p.ka scene.ambiantLight
       let P := Add rio (rdi.mul t)
       let Lvec := (Sub light.position P).normalized ops
       let nn := n.normalized ops
       let Id := Mul p.kd (light.color.mul (Dot Lvec nn))
       let R := Lvec.normalized ops
       let V := (rdi.inverte).normalized ops
       let Is := (Mul p.ks light.color).mul (ops.pow (Dot R V) p.n)
       let res := Add (Add Ia Id) Is
       some ⟨colorByte (res.x * 255), colorByte (res.y * 255), colorByte (res.z * 255)⟩) := by
  simp only [Phong.render, h]

/-- Witness for C4's theorem at a concrete input. -/
theorem phong_render_spec_witness :
    Phong.render zeroOps ⟨⟨1, 1, 1⟩, ⟨1, 1, 1⟩, ⟨1, 1, 1⟩, 2⟩ ⟨0, 0, 0⟩ ⟨0, 0, 1⟩ ⟨0, 1, 0⟩ 3 sceneW =
      (let Ia := Mul (Vec3f.mk 1 1 1) sceneW.ambiantLight
       let P := Add ⟨0, 0, 0⟩ ((Vec3f.mk 0 0 1).mul 3)
       let Lvec := (Sub ⟨0, 10, 0⟩ P).normalized zeroOps
       let nn := (Vec3f.mk 0 1 0).normalized zeroOps
       let Id := Mul (Vec3f.mk 1 1 1) ((Vec3f.mk 1 1 1).mul (Dot Lvec nn))
       let R := Lvec.normalized zeroOps
       let V := ((Vec3f.mk 0 0 1).inverte).normalized zeroOps
       let Is := (Mul (Vec3f.mk 1 1 1) ⟨1, 1, 1⟩).mul (zeroOps.pow (Dot R V) 2)
       let res := Add (Add Ia Id) Is
       some ⟨colorByte (res.x * 255), colorByte (res.y * 255), colorByte (res.z * 255)⟩) :=
  phong_render_spec zeroOps ⟨⟨1, 1, 1⟩, ⟨1, 1, 1⟩, ⟨1, 1, 1⟩, 2⟩ ⟨0, 0, 0⟩ ⟨0, 0, 1⟩ ⟨0, 1, 0⟩ 3
    sceneW ⟨⟨1, 1, 1⟩, ⟨0, 10, 0⟩⟩ [] rfl

/-- C9: the per-cell encoding step of `Image.save` writes the stored red
channel to the output red channel, the stored blue to the output green,
the stored green to the output blue, and fixes alpha at 255. -/
theorem image_save_swaps_channels (img : Image) (x y : ℕ)
    (cell : rgbRepresentation)
    (h : img.frameBuffer (y * img.width + x) = some cell) :
    img.save x y = some ⟨cell.r, cell.b, cell.g, 255⟩ := by
  simp [Image.save, h]

/-- A concrete 4×4 image whose every cell holds `(r,g,b) = (1,2,3)`. -/
def imgW : Image := ⟨fun _ => some ⟨1, 2, 3⟩, 4, 4⟩

/-- Witness for C9's theorem: the cell `(1,2,3)` is encoded as RGBA
`(1,3,2,255)`. -/
theorem image_save_swaps_channels_witness :
    imgW.save 0 0 = some ⟨1, 3, 2, 255⟩ :=
  image_save_swaps_channels imgW 0 0 ⟨1, 2, 3⟩ rfl

/-- A concrete `FloatOps` whose `sqrt` agrees with the real square root on
the inputs 25 and 1 (the only ones a witness evaluates it on). -/
def sqrt25Ops : FloatOps :=
  ⟨fun q => if q = 25 then 5 else if q = 1 then 1 else 0, fun _ _ => 0⟩

/-- C7: `Add` is commutative and associative, `Dot` is symmetric, `cross`
is antisymmetric, and — whenever `sqrt` behaves as an exact square root on
the two values it is asked for (`norme v` squares back to `Dot v v` and
`sqrt 1 = 1`) — the norm of `normalized v` of a non-zero `v` is within
`1e-5` of 1 (here: exactly 1). -/
theorem vector_algebra_laws (ops : FloatOps) (a b c v : Vec3f)
    (hv : v ≠ ⟨0, 0, 0⟩)
    (hpos : 0 < v.norme ops)
    (hsq : v.norme ops * v.norme ops = Dot v v)
    (h1 : ops.sqrt 1 = 1) :
    Add a b = Add b a
    ∧ Add (Add a b) c = Add a (Add b c)
    ∧ Dot a b = Dot b a
    ∧ cross a b = (cross b a).inverte
    ∧ |(v.normalized ops).norme ops - 1| ≤ 1 / 100000 := by
  have hN : v.norme ops ≠ 0 := ne_of_gt hpos
  refine ⟨?_, ?_, ?_, ?_, ?_⟩
  · simp only [Add, Vec3f.mk.injEq]
    refine ⟨by ring, by ring, by ring⟩
  · simp only [Add, Vec3f.mk.injEq]
    refine ⟨by ring, by ring, by ring⟩
  · simp only [Dot]
    ring
  · simp only [cross, Vec3f.inverte, Vec3f.mk.injEq]
    refine ⟨by ring, by ring, by ring⟩
  · have harg : (v.normalized ops).x * (v.normalized ops).x
        + (v.normalized ops).y * (v.normalized ops).y
        + (v.normalized ops).z * (v.normalized ops).z = 1 := by
      have hsq' : v.norme ops * v.norme ops = v.x * v.x + v.y * v.y + v.z * v.z := by
        simpa [Dot] using hsq
      simp only [Vec3f.normalized]
      field_simp
      linarith [hsq']
    have hnn : (v.normalized ops).norme ops = 1 := by
      rw [Vec3f.norme, harg, h1]
    rw [hnn]
    norm_num

/-- Witness for C7 at `v = (3,4,0)` with a `sqrt` that is exact on the two
evaluated inputs `25` and `1`. -/
theorem vector_algebra_laws_witness :
    Add ⟨1, 2, 3⟩ ⟨4, 5, 6⟩ = Add ⟨4, 5, 6⟩ ⟨1, 2, 3⟩
    ∧ Add (Add ⟨1, 2, 3⟩ ⟨4, 5, 6⟩) ⟨7, 8, 9⟩ = Add ⟨1, 2, 3⟩ (Add ⟨4, 5, 6⟩ ⟨7, 8, 9⟩)
    ∧ Dot ⟨1, 2, 3⟩ ⟨4, 5, 6⟩ = Dot ⟨4, 5, 6⟩ ⟨1, 2, 3⟩
    ∧ cross ⟨1, 2, 3⟩ ⟨4, 5, 6⟩ = (cross ⟨4, 5, 6⟩ ⟨1, 2, 3⟩).inverte
    ∧ |((Vec3f.mk 3 4 0).normalized sqrt25Ops).norme sqrt25Ops - 1| ≤ 1 / 100000 :=
  vector_algebra_laws sqrt25Ops ⟨1, 2, 3⟩ ⟨4, 5, 6⟩ ⟨7, 8, 9⟩ ⟨3, 4, 0⟩
    (by simp [Vec3f.mk.injEq])
    (by norm_num [Vec3f.norme, sqrt25Ops])
    (by norm_num [Vec3f.norme, sqrt25Ops, Dot])
    (by norm_num [sqrt25Ops])

/-! ## renderLoop step lemmas -/

theorem renderLoop_nil (ops : FloatOps) (scene : Scene) (ro rd : Vec3f)
    (acc : ℚ × rgbRepresentation) :
    renderLoop ops scene ro rd [] acc = some acc := rfl

theorem renderLoop_cons_hit (ops : FloatOps) (scene : Scene) (ro rd : Vec3f)
    (o : Sphere) (rest : List Sphere) (acc : ℚ × rgbRepresentation) (t : ℚ)
    (c : rgbRepresentation)
    (hi : o.isIntersectedByRay ops ro rd = (true, t)) (ht : t < acc.1)
    (hr : o.render ops ro rd t scene = some c) :
    renderLoop ops scene ro rd (o :: rest) acc =
      renderLoop ops scene ro rd rest (t, c) := by
  simp only [renderLoop, hi, hr, eq_self_iff_true, true_and]
  rw [if_pos ht]

theorem renderLoop_cons_hit_none (ops : FloatOps) (scene : Scene) (ro rd : Vec3f)
    (o : Sphere) (rest : List Sphere) (acc : ℚ × rgbRepresentation) (t : ℚ)
    (hi : o.isIntersectedByRay ops ro rd = (true, t)) (ht : t < acc.1)
    (hr : o.render ops ro rd t scene = none) :
    renderLoop ops scene ro rd (o :: rest) acc = none := by
  simp only [renderLoop, hi, hr, eq_self_iff_true, true_and]
  rw [if_pos ht]

theorem renderLoop_cons_skip (ops : FloatOps) (scene : Scene) (ro rd : Vec3f)
    (o : Sphere) (rest : List Sphere) (acc : ℚ × rgbRepresentation)
    (h : ¬((o.isIntersectedByRay ops ro rd).1 = true
      ∧ (o.isIntersectedByRay ops ro rd).2 < acc.1)) :
    renderLoop ops scene ro rd (o :: rest) acc =
      renderLoop ops scene ro rd rest acc := by
  simp only [renderLoop]
  rw [if_neg h]

theorem renderLoop_all_miss (ops : FloatOps) (scene : Scene) (ro rd : Vec3f)
    (objs : List Sphere) (acc : ℚ × rgbRepresentation)
    (h : ∀ o ∈ objs, (o.isIntersectedByRay ops ro rd).1 = false) :
    renderLoop ops scene ro rd objs acc = some acc := by
  induction objs with
  | nil => rfl
  | cons o rest ih =>
    rw [renderLoop_cons_skip]
    · exact ih fun o ho => h o (List.mem_cons_of_mem _ ho)
    · intro hc
      rw [h o (List.mem_cons_self _ _)] at hc
      exact Bool.false_ne_true hc.1

/-- C2: `renderPixel` starts from the `9999999999` sentinel and a black
result, scans the objects in insertion order, updates exactly on a
reported hit with `t` strictly below the current `tmin` (so a tie keeps
the earlier-inserted surface), and yields black when nothing is hit
(including an empty scene, or a lone hit at or above the sentinel). -/
theorem renderPixel_spec (ops : FloatOps) (scene : Scene) (ro rd : Vec3f) :
    (scene.objects = [] → renderPixel ops scene ro rd = some ⟨0, 0, 0⟩)
    ∧ ((∀ o ∈ scene.objects, (o.isIntersectedByRay ops ro rd).1 = false) →
        renderPixel ops scene ro rd = some ⟨0, 0, 0⟩)
    ∧ (∀ o t, scene.objects = [o] → o.isIntersectedByRay ops ro rd = (true, t) →
        ¬t < 9999999999 → renderPixel ops scene ro rd = some ⟨0, 0, 0⟩)
    ∧ (∀ o1 o2 t1, scene.objects = [o1, o2] →
        o1.isIntersectedByRay ops ro rd = (true, t1) →
        o2.isIntersectedByRay ops ro rd = (true, t1) → t1 < 9999999999 →
        renderPixel ops scene ro rd = o1.render ops ro rd t1 scene)
    ∧ (∀ o1 o2 t1 t2 c1, scene.objects = [o1, o2] →
        o1.isIntersectedByRay ops ro rd = (true, t1) →
        o2.isIntersectedByRay ops ro rd = (true, t2) →
        t1 < 9999999999 → t2 < t1 →
        o1.render ops ro rd t1 scene = some c1 →
        renderPixel ops scene ro rd = o2.render ops ro rd t2 scene) := by
  refine ⟨?_, ?_, ?_, ?_, ?_⟩
  · intro h
    simp [renderPixel, h, renderLoop_nil]
  · intro h
    rw [renderPixel, renderLoop_all_miss ops scene ro rd _ _ h]
    rfl
  · intro o t h hi ht
    rw [renderPixel, h, renderLoop_cons_skip, renderLoop_nil]
    · rfl
    · rw [hi]
      exact fun hc => ht hc.2
  · intro o1 o2 t1 h hi1 hi2 ht
    rw [renderPixel, h]
    cases hr : o1.render ops ro rd t1 scene with
    | none =>
      rw [renderLoop_cons_hit_none ops scene ro rd o1 _ _ t1 hi1 ht hr]
      rfl
    | some c =>
      rw [renderLoop_cons_hit ops scene ro rd o1 _ _ t1 c hi1 ht hr,
        renderLoop_cons_skip, renderLoop_nil]
      · rfl
      · rw [hi2]
        exact fun hc => absurd hc.2 (lt_irrefl t1)
  · intro o1 o2 t1 t2 c1 h hi1 hi2 ht1 ht2 hr1
    rw [renderPixel, h,
      renderLoop_cons_hit ops scene ro rd o1 _ _ t1 c1 hi1 ht1 hr1]
    cases hr2 : o2.render ops ro rd t2 scene with
    | none =>
      rw [renderLoop_cons_hit_none ops scene ro rd o2 _ _ t2 hi2 ht2 hr2]
      rfl
    | some c2 =>
      rw [renderLoop_cons_hit ops scene ro rd o2 _ _ t2 c2 hi2 ht2 hr2,
        renderLoop_nil]
      rfl

/-- A black Lambert material, whose shading is `some ⟨0,0,0⟩` under any
light. -/
def matZ : Materials := .lambert ⟨⟨0, 0, 0⟩⟩

/-- Unit sphere at the origin (hit at `t = 3` from `(0,0,-3)` along `z`). -/
def s0 : Sphere := ⟨1, ⟨0, 0, 0⟩, matZ⟩

/-- Unit sphere at the origin with a red material (same geometry as `s0`). -/
def s0r : Sphere := ⟨1, ⟨0, 0, 0⟩, .lambert ⟨⟨1, 0, 0⟩⟩⟩

/-- Unit sphere at `z = 2` (hit at `t = 5` from `(0,0,-3)` along `z` under
`zeroOps`). -/
def sFar : Sphere := ⟨1, ⟨0, 0, 2⟩, matZ⟩

/-- Unit sphere off to the side, missed by the `z`-axis ray. -/
def sMiss : Sphere := ⟨1, ⟨5, 0, 0⟩, matZ⟩

/-- Unit sphere so far away that its hit distance reaches the sentinel. -/
def sBig : Sphere := ⟨1, ⟨0, 0, 20000000000⟩, matZ⟩

/-- One white light, shared by the witness scenes. -/
def lightsW : List Light := [⟨⟨1, 1, 1⟩, ⟨0, 10, 0⟩⟩]

def sceneMissW : Scene := ⟨[sMiss], lightsW, ⟨0, 0, 0⟩⟩
def sceneBigW : Scene := ⟨[sBig], lightsW, ⟨0, 0, 0⟩⟩
def sceneTieW : Scene := ⟨[s0, s0r], lightsW, ⟨0, 0, 0⟩⟩
def sceneTwoW : Scene := ⟨[sFar, s0], lightsW, ⟨0, 0, 0⟩⟩

/-- Witness for C2 on concrete scenes: empty scene, all-miss scene, lone
hit at the sentinel, a tie kept by the earlier sphere, and a strictly
closer second sphere winning. -/
theorem renderPixel_spec_witness :
    renderPixel zeroOps sceneW ⟨0, 0, -3⟩ ⟨0, 0, 1⟩ = some ⟨0, 0, 0⟩
    ∧ renderPixel zeroOps sceneMissW ⟨0, 0, -3⟩ ⟨0, 0, 1⟩ = some ⟨0, 0, 0⟩
    ∧ renderPixel zeroOps sceneBigW ⟨0, 0, 0⟩ ⟨0, 0, 1⟩ = some ⟨0, 0, 0⟩
    ∧ renderPixel zeroOps sceneTieW ⟨0, 0, -3⟩ ⟨0, 0, 1⟩ =
        Sphere.render zeroOps s0 ⟨0, 0, -3⟩ ⟨0, 0, 1⟩ 3 sceneTieW
    ∧ renderPixel zeroOps sceneTwoW ⟨0, 0, -3⟩ ⟨0, 0, 1⟩ =
        Sphere.render zeroOps s0 ⟨0, 0, -3⟩ ⟨0, 0, 1⟩ 3 sceneTwoW :=
  ⟨(renderPixel_spec zeroOps sceneW _ _).1 rfl,
   (renderPixel_spec zeroOps sceneMissW _ _).2.1 (by
      intro o ho
      simp only [sceneMissW, List.mem_singleton] at ho
      subst ho
      norm_num [Sphere.isIntersectedByRay, Add, Dot, zeroOps, sMiss, matZ, min_def]),
   (renderPixel_spec zeroOps sceneBigW _ _).2.2.1 sBig 20000000000 rfl
     (by norm_num [Sphere.isIntersectedByRay, Add, Dot, zeroOps, sBig, matZ, min_def])
     (by norm_num),
   (renderPixel_spec zeroOps sceneTieW _ _).2.2.2.1 s0 s0r 3 rfl
     (by norm_num [Sphere.isIntersectedByRay, Add, Dot, zeroOps, s0, matZ, min_def])
     (by norm_num [Sphere.isIntersectedByRay, Add, Dot, zeroOps, s0r, min_def])
     (by norm_num),
   (renderPixel_spec zeroOps sceneTwoW _ _).2.2.2.2 sFar s0 5 3 ⟨0, 0, 0⟩ rfl
     (by norm_num [Sphere.isIntersectedByRay, Add, Dot, zeroOps, sFar, matZ, min_def])
     (by norm_num [Sphere.isIntersectedByRay, Add, Dot, zeroOps, s0, matZ, min_def])
     (by norm_num) (by norm_num)
     (by
      norm_num [Sphere.render, Materials.render, Lambert.render, sFar, matZ,
        sceneTwoW, lightsW, Mul, Vec3f.mul, Vec3f.inverte, Dot, Add, colorByte, ratTrunc])⟩

/-! ## Empty light list: shading panics -/

theorem iib_eta (ops : FloatOps) (o : Sphere) (ro rd : Vec3f)
    (h : (o.isIntersectedByRay ops ro rd).1 = true) :
    o.isIntersectedByRay ops ro rd = (true, (o.isIntersectedByRay ops ro rd).2) := by
  rw [← h]

theorem render_none_of_no_lights (ops : FloatOps) (s : Sphere) (rio rdi : Vec3f)
    (t : ℚ) (scene : Scene) (hl : scene.lights = []) :
    s.render ops rio rdi t scene = none := by
  cases hm : s.Material with
  | lambert l => simp [Sphere.render, Materials.render, hm, Lambert.render, hl]
  | phong p => simp [Sphere.render, Materials.render, hm, Phong.render, hl]

theorem renderLoop_no_lights_none_iff (ops : FloatOps) (scene : Scene)
    (ro rd : Vec3f) (hl : scene.lights = []) (objs : List Sphere)
    (acc : ℚ × rgbRepresentation) :
    renderLoop ops scene ro rd objs acc = none ↔
      ∃ o ∈ objs, (o.isIntersectedByRay ops ro rd).1 = true
        ∧ (o.isIntersectedByRay ops ro rd).2 < acc.1 := by
  induction objs with
  | nil => simp [renderLoop_nil]
  | cons o rest ih =>
    by_cases hc : (o.isIntersectedByRay ops ro rd).1 = true
        ∧ (o.isIntersectedByRay ops ro rd).2 < acc.1
    · rw [renderLoop_cons_hit_none ops scene ro rd o rest acc _
        (iib_eta ops o ro rd hc.1) hc.2
        (render_none_of_no_lights ops o ro rd _ scene hl)]
      simp only [List.mem_cons, true_iff]
      exact ⟨o, Or.inl rfl, hc⟩
    · rw [renderLoop_cons_skip ops scene ro rd o rest acc hc, ih]
      constructor
      · rintro ⟨o', ho', hcond⟩
        exact ⟨o', List.mem_cons_of_mem _ ho', hcond⟩
      · rintro ⟨o', ho', hcond⟩
        rcases List.mem_cons.mp ho' with he | hm
        · exact absurd (he ▸ hcond) hc
        · exact ⟨o', hm, hcond⟩

theorem renderLoop_no_lights_dichotomy (ops : FloatOps) (scene : Scene)
    (ro rd : Vec3f) (hl : scene.lights = []) (objs : List Sphere)
    (acc : ℚ × rgbRepresentation) :
    renderLoop ops scene ro rd objs acc = some acc
      ∨ renderLoop ops scene ro rd objs acc = none := by
  induction objs with
  | nil => exact Or.inl rfl
  | cons o rest ih =>
    by_cases hc : (o.isIntersectedByRay ops ro rd).1 = true
        ∧ (o.isIntersectedByRay ops ro rd).2 < acc.1
    · right
      rw [renderLoop_cons_hit_none ops scene ro rd o rest acc _
        (iib_eta ops o ro rd hc.1) hc.2
        (render_none_of_no_lights ops o ro rd _ scene hl)]
    · rw [renderLoop_cons_skip ops scene ro rd o rest acc hc]
      exact ih

/-- C10 (amended): on a scene with an empty light list, `renderPixel`
returns black exactly when no surface reports a hit below the
`9999999999` sentinel, and the shading failure (the out-of-range
`lights[0]` access, modelled as `none`) occurs exactly when some surface
reports a hit below the sentinel. -/
theorem renderPixel_empty_lights_spec (ops : FloatOps) (scene : Scene)
    (ro rd : Vec3f) (hl : scene.lights = []) :
    (renderPixel ops scene ro rd = some ⟨0, 0, 0⟩ ↔
      ∀ o ∈ scene.objects, ¬((o.isIntersectedByRay ops ro rd).1 = true
        ∧ (o.isIntersectedByRay ops ro rd).2 < 9999999999))
    ∧ (renderPixel ops scene ro rd = none ↔
      ∃ o ∈ scene.objects, (o.isIntersectedByRay ops ro rd).1 = true
        ∧ (o.isIntersectedByRay ops ro rd).2 < 9999999999) := by
  have hiff := renderLoop_no_lights_none_iff ops scene ro rd hl scene.objects
    (9999999999, ⟨0, 0, 0⟩)
  have hdich := renderLoop_no_lights_dichotomy ops scene ro rd hl scene.objects
    (9999999999, ⟨0, 0, 0⟩)
  constructor
  · constructor
    · intro h o ho hcond
      have hnn : renderLoop ops scene ro rd scene.objects (9999999999, ⟨0, 0, 0⟩) ≠ none := by
        intro hn
        rw [renderPixel, hn] at h
        exact Option.noConfusion h
      exact hnn (hiff.mpr ⟨o, ho, hcond⟩)
    · intro hall
      rcases hdich with hs | hn
      · rw [renderPixel, hs]
        rfl
      · obtain ⟨o, ho, hcond⟩ := hiff.mp hn
        exact absurd hcond (hall o ho)
  · constructor
    · intro h
      refine hiff.mp ?_
      rcases hdich with hs | hn
      · rw [renderPixel, hs] at h
        exact Option.noConfusion h
      · exact hn
    · intro hex
      rw [renderPixel, hiff.mpr hex]
      rfl

/-- A concrete `FloatOps` whose `sqrt` agrees with the real square root on
the input 4 (the only one the counterexample evaluates it on). -/
def sqrt4Ops : FloatOps := ⟨fun q => if q = 4 then 2 else 0, fun _ _ => 0⟩

/-- C10 counterexample: on a scene with no lights, the far sphere `sBig`
reports a hit (`delta = 4 > 0`, at distance `19999999999`), yet
`renderPixel` returns black instead of failing, because the hit distance
is not below the finite `9999999999` sentinel. -/
theorem renderPixel_empty_lights_counterexample :
    (Sphere.isIntersectedByRay sqrt4Ops sBig ⟨0, 0, 0⟩ ⟨0, 0, 1⟩).1 = true
    ∧ renderPixel sqrt4Ops ⟨[sBig], [], ⟨0, 0, 0⟩⟩ ⟨0, 0, 0⟩ ⟨0, 0, 1⟩ =
        some ⟨0, 0, 0⟩ := by
  constructor
  · norm_num [Sphere.isIntersectedByRay, Add, Dot, sqrt4Ops, sBig, matZ, min_def]
  · norm_num [renderPixel, renderLoop, Sphere.isIntersectedByRay, Add, Dot,
      sqrt4Ops, sBig, matZ, min_def]

/-- Witness for C10's amended theorem: a no-light scene whose single
sphere is hit below the sentinel makes `renderPixel` fail. -/
theorem renderPixel_empty_lights_spec_witness :
    renderPixel zeroOps ⟨[s0], [], ⟨0, 0, 0⟩⟩ ⟨0, 0, -3⟩ ⟨0, 0, 1⟩ = none :=
  (renderPixel_empty_lights_spec zeroOps ⟨[s0], [], ⟨0, 0, 0⟩⟩ ⟨0, 0, -3⟩ ⟨0, 0, 1⟩ rfl).2.mpr
    ⟨s0, by simp,
      by norm_num [Sphere.isIntersectedByRay, Add, Dot, zeroOps, s0, matZ, min_def],
      by norm_num [Sphere.isIntersectedByRay, Add, Dot, zeroOps, s0, matZ, min_def]⟩

/-! ## Only the first light is consulted -/

/-- C8: two scenes with the same objects, the same ambient light and the
same first light — differing only in the lights after the first — produce
identical `Lambert.render`, `Phong.render` and `renderPixel` results. -/
theorem shading_first_light_only (ops : FloatOps) (s1 s2 : Scene) (l : Light)
    (tl1 tl2 : List Light) (hobj : s1.objects = s2.objects)
    (hamb : s1.ambiantLight = s2.ambiantLight)
    (h1 : s1.lights = l :: tl1) (h2 : s2.lights = l :: tl2)
    (rio rdi n ro rd : Vec3f) (t : ℚ) :
    (∀ lam : Lambert, lam.render ops rio rdi n t s1 = lam.render ops rio rdi n t s2)
    ∧ (∀ ph : Phong, ph.render ops rio rdi n t s1 = ph.render ops rio rdi n t s2)
    ∧ renderPixel ops s1 ro rd = renderPixel ops s2 ro rd := by
  have hlam : ∀ (lam : Lambert) (rio rdi n : Vec3f) (t : ℚ),
      lam.render ops rio rdi n t s1 = lam.render ops rio rdi n t s2 := by
    intro lam rio rdi n t
    simp [Lambert.render, h1, h2]
  have hph : ∀ (ph : Phong) (rio rdi n : Vec3f) (t : ℚ),
      ph.render ops rio rdi n t s1 = ph.render ops rio rdi n t s2 := by
    intro ph rio rdi n t
    simp [Phong.render, h1, h2, hamb]
  have hmat : ∀ (m : Materials) (rio rdi n : Vec3f) (t : ℚ),
      m.render ops rio rdi n t s1 = m.render ops rio rdi n t s2 := by
    intro m rio rdi n t
    cases m with
    | lambert lam => exact hlam lam rio rdi n t
    | phong ph => exact hph ph rio rdi n t
  have hsr : ∀ (o : Sphere) (rio rdi : Vec3f) (t : ℚ),
      o.render ops rio rdi t s1 = o.render ops rio rdi t s2 := by
    intro o rio rdi t
    exact hmat o.Material rio rdi rdi.inverte t
  have hloop : ∀ (objs : List Sphere) (acc : ℚ × rgbRepresentation),
      renderLoop ops s1 ro rd objs acc = renderLoop ops s2 ro rd objs acc := by
    intro objs
    induction objs with
    | nil => intro acc; rfl
    | cons o rest ih =>
      intro acc
      by_cases hc : (o.isIntersectedByRay ops ro rd).1 = true
          ∧ (o.isIntersectedByRay ops ro rd).2 < acc.1
      · cases hr : o.render ops ro rd (o.isIntersectedByRay ops ro rd).2 s1 with
        | none =>
          rw [renderLoop_cons_hit_none ops s1 ro rd o rest acc _
              (iib_eta ops o ro rd hc.1) hc.2 hr,
            renderLoop_cons_hit_none ops s2 ro rd o rest acc _
              (iib_eta ops o ro rd hc.1) hc.2 ((hsr o ro rd _).symm.trans hr)]
        | some c =>
          rw [renderLoop_cons_hit ops s1 ro rd o rest acc _ c
              (iib_eta ops o ro rd hc.1) hc.2 hr,
            renderLoop_cons_hit ops s2 ro rd o rest acc _ c
              (iib_eta ops o ro rd hc.1) hc.2 ((hsr o ro rd _).symm.trans hr),
            ih]
      · rw [renderLoop_cons_skip ops s1 ro rd o rest acc hc,
          renderLoop_cons_skip ops s2 ro rd o rest acc hc, ih]
  refine ⟨fun lam => hlam lam rio rdi n t, fun ph => hph ph rio rdi n t, ?_⟩
  rw [renderPixel, renderPixel, hobj, hloop]

/-- A second scene like `sceneTieW` but with an extra light appended after
the first. -/
def sceneTie2W : Scene :=
  ⟨[s0, s0r], [⟨⟨1, 1, 1⟩, ⟨0, 10, 0⟩⟩, ⟨⟨5, 5, 5⟩, ⟨3, 3, 3⟩⟩], ⟨0, 0, 0⟩⟩

/-- Witness for C8 on two concrete scenes differing only after the first
light. -/
theorem shading_first_light_only_witness :
    (∀ lam : Lambert, lam.render zeroOps ⟨1, 1, 1⟩ ⟨0, 0, 1⟩ ⟨0, 1, 0⟩ 2 sceneTieW =
      lam.render zeroOps ⟨1, 1, 1⟩ ⟨0, 0, 1⟩ ⟨0, 1, 0⟩ 2 sceneTie2W)
    ∧ (∀ ph : Phong, ph.render zeroOps ⟨1, 1, 1⟩ ⟨0, 0, 1⟩ ⟨0, 1, 0⟩ 2 sceneTieW =
      ph.render zeroOps ⟨1, 1, 1⟩ ⟨0, 0, 1⟩ ⟨0, 1, 0⟩ 2 sceneTie2W)
    ∧ renderPixel zeroOps sceneTieW ⟨0, 0, -3⟩ ⟨0, 0, 1⟩ =
        renderPixel zeroOps sceneTie2W ⟨0, 0, -3⟩ ⟨0, 0, 1⟩ :=
  shading_first_light_only zeroOps sceneTieW sceneTie2W ⟨⟨1, 1, 1⟩, ⟨0, 10, 0⟩⟩
    [] [⟨⟨5, 5, 5⟩, ⟨3, 3, 3⟩⟩] rfl rfl rfl rfl ⟨1, 1, 1⟩ ⟨0, 0, 1⟩ ⟨0, 1, 0⟩
    ⟨0, 0, -3⟩ ⟨0, 0, 1⟩ 2

/-! ## Frame-loop indexing lemmas -/

theorem colLoop_succ (w x : ℕ) (pixx : ℕ → Option rgbRepresentation) (h : ℕ)
    (im : Image) :
    colLoop w x pixx (h + 1) im =
      { colLoop w x pixx h im with
        frameBuffer := writeCell (colLoop w x pixx h im).frameBuffer (h * w + x) (pixx h) } := by
  rw [colLoop, List.range_succ, List.foldl_append]
  rfl

theorem colLoop_get (w x : ℕ) (pixx : ℕ → Option rgbRepresentation) (h : ℕ)
    (im : Image) (y : ℕ) (hy : y < h) (hw : 0 < w) :
    (colLoop w x pixx h im).frameBuffer (y * w + x) = pixx y := by
  induction h with
  | zero => exact absurd hy (Nat.not_lt_zero y)
  | succ h ih =>
    rw [colLoop_succ]
    by_cases hyh : y = h
    · subst hyh
      simp [writeCell]
    · have hlt : y < h := lt_of_le_of_ne (Nat.lt_succ_iff.mp hy) hyh
      have hne : y * w + x ≠ h * w + x := by
        intro he
        exact hyh (Nat.eq_of_mul_eq_mul_right hw (Nat.add_right_cancel he))
      simp only [writeCell, if_neg hne]
      exact ih hlt

theorem colLoop_other (w x : ℕ) (pixx : ℕ → Option rgbRepresentation) (h : ℕ)
    (im : Image) (j : ℕ) (hj : ∀ y < h, j ≠ y * w + x) :
    (colLoop w x pixx h im).frameBuffer j = im.frameBuffer j := by
  induction h with
  | zero => rfl
  | succ h ih =>
    rw [colLoop_succ]
    simp only [writeCell, if_neg (hj h (Nat.lt_succ_self h))]
    exact ih fun y hy => hj y (Nat.lt_succ_of_lt hy)

theorem frameLoop_get (w h : ℕ) (pix : ℕ → ℕ → Option rgbRepresentation)
    (im : Image) (x y : ℕ) (hx : x < w) (hy : y < h) :
    (frameLoop w h pix im).frameBuffer (y * w + x) = pix x y := by
  have hw : 0 < w := lt_of_le_of_lt (Nat.zero_le x) hx
  have aux : ∀ m, m ≤ w → ∀ im : Image, x < m →
      ((List.range m).foldl (fun a x' => colLoop w x' (pix x') h a) im).frameBuffer
        (y * w + x) = pix x y := by
    intro m
    induction m with
    | zero => intro _ im hx0; exact absurd hx0 (Nat.not_lt_zero x)
    | succ m ih =>
      intro hm im hxm
      rw [List.range_succ, List.foldl_append, List.foldl_cons, List.foldl_nil]
      by_cases hxe : x = m
      · subst hxe
        exact colLoop_get w x (pix x) h _ y hy hw
      · have hxlt : x < m := lt_of_le_of_ne (Nat.lt_succ_iff.mp hxm) hxe
        rw [colLoop_other w m (pix m) h _ (y * w + x) ?_]
        · exact ih (Nat.le_of_succ_le hm) im hxlt
        · intro y' _ he
          have hmw : m < w := Nat.lt_of_lt_of_le (Nat.lt_succ_self m) hm
          have h1 : (y * w + x) % w = x := by
            rw [Nat.add_comm, Nat.add_mul_mod_self_right]
            exact Nat.mod_eq_of_lt hx
          have h2 : (y' * w + m) % w = m := by
            rw [Nat.add_comm, Nat.add_mul_mod_self_right]
            exact Nat.mod_eq_of_lt hmw
          rw [he, h2] at h1
          exact hxe h1.symm
  exact aux w le_rfl im hx

/-- The camera direction computed as `dir.mul (1/dir.norme())` equals the
spec's `normalize(at − position)`. -/
theorem camera_direction_eq (ops : FloatOps) (c : Camera) :
    c.direction ops = (Sub c.«at» c.position).normalized ops := by
  have hd : Add c.«at» c.position.inverte = Sub c.«at» c.position := by
    simp [Add, Sub, Vec3f.inverte, sub_eq_add_neg]
  simp only [Camera.direction, hd, Vec3f.normalized, Vec3f.mul, Vec3f.mk.injEq]
  refine ⟨mul_one_div _ _, mul_one_div _ _, mul_one_div _ _⟩

/-- C6: for every pixel `(x,y)` inside the image, the rendered frame holds
at flat index `y*width + x` the `renderPixel` result for the ray whose
origin is the camera position and whose direction follows the spec's
formula: `direction = normalize(at − position)`,
`horizontal = normalize(cross(direction, up)) * (0.66 * width/height)`,
`vertical = normalize(cross(horizontal, direction)) * 0.66`,
`uv = ((x+0.5)/width, (y+0.5)/height)`,
`rd = normalize(direction + horizontal*(uv.x−0.5) + vertical*(uv.y−0.5))`. -/
theorem renderFrame_spec (ops : FloatOps) (image : Image) (camera : Camera)
    (scene : Scene) (x y : ℕ) (hx : x < image.width) (hy : y < image.height) :
    (renderFrame ops image camera scene).frameBuffer (y * image.width + x) =
      renderPixel ops scene camera.position
        (let direction := (Sub camera.«at» camera.position).normalized ops
         let horizontal := ((cross direction camera.up).normalized ops).mul
           (0.66 * ((image.width : ℚ) / (image.height : ℚ)))
         let vertical := ((cross horizontal direction).normalized ops).mul 0.66
         let uvx := ((x : ℚ) + 0.5) / (image.width : ℚ)
         let uvy := ((y : ℚ) + 0.5) / (image.height : ℚ)
         (Add (Add direction (horizontal.mul (uvx - 0.5)))
           (vertical.mul (uvy - 0.5))).normalized ops) := by
  simp only [renderFrame]
  rw [frameLoop_get image.width image.height _ image x y hx hy,
    camera_direction_eq]

/-- A 1×1 image with an unwritten frame buffer. -/
def imgW1 : Image := ⟨fun _ => none, 1, 1⟩

/-- The reference scene's camera. -/
def cameraW : Camera := ⟨⟨0, 0, -5⟩, ⟨0, 1, 0⟩, ⟨0, 0, 5⟩⟩

/-- Witness for C6 at the single pixel of a 1×1 image. -/
theorem renderFrame_spec_witness :
    (renderFrame zeroOps imgW1 cameraW sceneW).frameBuffer (0 * imgW1.width + 0) =
      renderPixel zeroOps sceneW cameraW.position
        (let direction := (Sub cameraW.«at» cameraW.position).normalized zeroOps
         let horizontal := ((cross direction cameraW.up).normalized zeroOps).mul
           (0.66 * ((imgW1.width : ℚ) / (imgW1.height : ℚ)))
         let vertical := ((cross horizontal direction).normalized zeroOps).mul 0.66
         let uvx := ((0 : ℚ) + 0.5) / (imgW1.width : ℚ)
         let uvy := ((0 : ℚ) + 0.5) / (imgW1.height : ℚ)
         (Add (Add direction (horizontal.mul (uvx - 0.5)))
           (vertical.mul (uvy - 0.5))).normalized zeroOps) :=
  renderFrame_spec zeroOps imgW1 cameraW sceneW 0 0 (by decide) (by decide)

end GoRT
